import Mathlib

/-!
Verification development for the export engine of pspg (src/export.c).

The C code is shallowly embedded over byte lists (`List UInt8`): a C string or
field slice is the list of its bytes (the terminating NUL is implicit: reading
one byte past an exhausted slice is modelled with `headD 0` / `getD _ 0`,
matching the NUL terminator of the row string), a possibly NULL `char *`
becomes `Option (List UInt8)`, and C `int` lengths that stay non-negative in
every reachable call become `Nat` (the `while (x > 0)` loop exits of the C are
mirrored exactly by truncated `Nat` subtraction).  Undefined behaviour that the
C can actually reach (a NULL-pointer dereference, an out-of-bounds array read)
is made explicit by returning `Except Unit _` with `.error ()` at the faulty
read.  All loops are written with an explicit fuel argument that provably
suffices (each C iteration consumes at least one unit of the loop counter), so
every definition reduces by kernel evaluation.
-/

/-- Modelled from the spec: the UTF-8 byte-length primitive `utf8charlen` from
unicode.c, which is not under src/ (the spec lists the low-level UTF-8
byte-length primitive as an external collaborator).  Standard leading-byte
classification; a continuation or stray byte counts as one byte. -/
def utf8charlen (b : UInt8) : Nat :=
  if b < 0x80 then 1
  else if b < 0xC0 then 1
  else if b < 0xE0 then 2
  else if b < 0xF0 then 3
  else if b < 0xF8 then 4
  else if b < 0xFC then 5
  else if b < 0xFE then 6
  else 1

theorem utf8charlen_pos (b : UInt8) : 1 ≤ utf8charlen b := by
  unfold utf8charlen
  repeat' split
  all_goals omega

theorem utf8charlen_ascii (b : UInt8) (h : b < 0x80) : utf8charlen b = 1 := by
  unfold utf8charlen
  rw [if_pos h]

/-- The three bytes of the NULL sentinel glyph `∅` (U+2205), written
`"\342\210\205"` in export.c. -/
def nullSentinel : List UInt8 := [226, 136, 133]

/-- Result of the quoting routines, making the pointer-identity contract of
export.c explicit: `null` is a returned NULL pointer, `same` is the input
pointer returned unchanged, `fresh buf` is a freshly allocated buffer holding
the bytes `buf` (before the terminating NUL). -/
inductive QRes where
  | null : QRes
  | same : QRes
  | fresh : List UInt8 → QRes
deriving DecidableEq

deriving instance DecidableEq for Except

/-- The scan loop of csv_format (export.c lines 51-67): walks the field and
reports whether it holds one of `"`, `,`, tab, CR, LF at a character start.
`n` mirrors the C `_slen` counter (the loop exits when it reaches 0, Nat
subtraction mirroring the signed counter going non-positive); the byte list
stays in sync with it.  Fuel decreases by one per iteration; `n` decreases by
at least one, so fuel `n` suffices. -/
def csvScanGo (force8bit : Bool) : Nat → List UInt8 → Nat → Bool
  | 0, _, _ => false
  | f + 1, s, n =>
    if n = 0 then false
    else
      let b := s.headD 0
      if b = 34 ∨ b = 44 ∨ b = 9 ∨ b = 13 ∨ b = 10 then true
      else
        let size := if force8bit then 1 else utf8charlen b
        csvScanGo force8bit f (s.drop size) (n - size)

/-- The scan loop of quote_sql_identifier (export.c lines 121-138): the C
condition `*ptr && _slen > 0` appears as `headD 0 ≠ 0 ∧ n ≠ 0`.  Reports
needs_quoting: true when some visited byte is outside `[a-z0-9_]`. -/
def identScanGo (force8bit : Bool) : Nat → List UInt8 → Nat → Bool
  | 0, _, _ => false
  | f + 1, s, n =>
    let b := s.headD 0
    if b ≠ 0 ∧ n ≠ 0 then
      let size := if force8bit then 1 else utf8charlen b
      if ¬((97 ≤ b ∧ b ≤ 122) ∨ (48 ≤ b ∧ b ≤ 57) ∨ b = 95) then true
      else identScanGo force8bit f (s.drop size) (n - size)
    else false

/-- The scan loop of quote_sql_literal (export.c lines 212-234), with the
running `has_dot` flag: needs_quoting is reported at a second `.` or at any
byte that is neither a digit nor the first `.`. -/
def literalScanGo (force8bit : Bool) : Nat → Bool → List UInt8 → Nat → Bool
  | 0, _, _, _ => false
  | f + 1, has_dot, s, n =>
    let b := s.headD 0
    if b ≠ 0 ∧ n ≠ 0 then
      let size := if force8bit then 1 else utf8charlen b
      if b = 46 then
        if has_dot then true
        else literalScanGo force8bit f true (s.drop size) (n - size)
      else if ¬(48 ≤ b ∧ b ≤ 57) then true
      else literalScanGo force8bit f has_dot (s.drop size) (n - size)
    else false

/-- The shared copy loop of the three quoting routines (export.c lines 79-91,
152-164 and 247-259): wraps the field in the quote byte `q` and doubles each
embedded `q`.  `out` is what has been written to the fresh buffer so far
(starting with the opening quote), `slen` the running reported length.

Fidelity notes, kept from the C exactly: in non-force8bit mode the C computes
the step `size` as `utf8charlen(*ptr)` where `ptr` is the OUTPUT cursor, i.e.
it reads a not yet written, uninitialized byte of the fresh buffer; `junk i`
models the uninitialized heap byte at offset `i` of that buffer.  The doubled
quote byte is written but NOT counted into `slen` (the C only does
`*slen += size` for the copied bytes).  `*str++` reads past the end of the
input slice when a junk-derived `size` overshoots; such reads are modelled as
byte 0. -/
def quoteLoopGo (q : UInt8) (force8bit : Bool) (junk : Nat → UInt8) :
    Nat → List UInt8 → List UInt8 → Nat → Nat → List UInt8 × Nat
  | 0, out, _, _, slen => (out, slen)
  | f + 1, out, s, n, slen =>
    if n = 0 then (out, slen)
    else
      let size := if force8bit then 1 else utf8charlen (junk out.length)
      let out := if s.headD 0 = q then out ++ [q] else out
      let copied := (List.range size).map fun k => s.getD k 0
      quoteLoopGo q force8bit junk f (out ++ copied) (s.drop size) (n - size) (slen + size)

/-- The wrap step common to the quoting routines (export.c lines 72-97 etc.):
write the opening quote (reported length starts at 1), run the copy loop, then
append the closing quote and count it. -/
def quoteWrap (q : UInt8) (force8bit : Bool) (junk : Nat → UInt8)
    (s : List UInt8) (slen : Nat) : List UInt8 × Nat :=
  let r := quoteLoopGo q force8bit junk (slen + 1) [q] s slen 1
  (r.1 ++ [q], r.2 + 1)

/-- csv_format (export.c lines 26-98) on a non-NULL input slice `s` with
reported length `slen`.  Branches in source order: the `∅` sentinel (only when
not in force-8-bit mode) yields NULL with length 0; an empty field yields NULL
(empty_string_is_null) or a fresh `""` of length 2; a field the scan finds
harmless is returned as the same pointer; otherwise the field is wrapped in
double quotes with embedded double quotes doubled. -/
def csv_format_nn (junk : Nat → UInt8) (s : List UInt8) (slen : Nat)
    (force8bit empty_string_is_null : Bool) : QRes × Nat :=
  if ¬force8bit ∧ slen = 3 ∧ s.take 3 = nullSentinel then (.null, 0)
  else if slen = 0 then
    if empty_string_is_null then (.null, slen)
    else (.fresh [34, 34], 2)
  else if ¬csvScanGo force8bit (slen + 1) s slen then (.same, slen)
  else
    let r := quoteWrap 34 force8bit junk s slen
    (.fresh r.1, r.2)

/-- csv_format on a possibly NULL pointer.  A NULL input is dereferenced by
the sentinel strncmp when `!force8bit ∧ slen = 3` and by the scan loop when
`slen ≠ 0`; only the `slen = 0` branch returns without reading the pointer. -/
def csv_format (junk : Nat → UInt8) (str : Option (List UInt8)) (slen : Nat)
    (force8bit empty_string_is_null : Bool) : Except Unit (QRes × Nat) :=
  match str with
  | some s => .ok (csv_format_nn junk s slen force8bit empty_string_is_null)
  | none =>
    if ¬force8bit ∧ slen = 3 then .error ()
    else if slen = 0 then
      .ok (if empty_string_is_null then (.null, slen) else (.fresh [34, 34], 2))
    else .error ()

/-- quote_sql_identifier (export.c lines 103-171) on a non-NULL input: an
input whose first byte is `"` is returned unchanged before anything else; an
empty input (first byte NUL) or a zero reported length is returned unchanged;
then the first byte must be a space or a lowercase letter and every scanned
byte must be in `[a-z0-9_]`, else the input is double-quote wrapped with
embedded double quotes doubled.  Byte comparisons are on unsigned bytes; the C
signed-char comparison classifies bytes ≥ 0x80 the same way (quoting needed). -/
def quote_sql_identifier_nn (junk : Nat → UInt8) (s : List UInt8) (slen : Nat)
    (force8bit : Bool) : QRes × Nat :=
  if s.headD 0 = 34 then (.same, slen)
  else if s.headD 0 = 0 ∨ slen = 0 then (.same, slen)
  else
    let needs_quoting :=
      if s.headD 0 ≠ 32 ∧ (s.headD 0 < 97 ∨ 122 < s.headD 0) then true
      else identScanGo force8bit (slen + 1) s slen
    if ¬needs_quoting then (.same, slen)
    else
      let r := quoteWrap 34 force8bit junk s slen
      (.fresh r.1, r.2)

/-- quote_sql_identifier on a possibly NULL pointer.  The C dereferences
`*str` on line 111 (the already-quoted test) BEFORE its own NULL test on line
114, so a NULL input is read: modelled as `.error ()`. -/
def quote_sql_identifier (junk : Nat → UInt8) (str : Option (List UInt8))
    (slen : Nat) (force8bit : Bool) : Except Unit (QRes × Nat) :=
  match str with
  | none => .error ()
  | some s => .ok (quote_sql_identifier_nn junk s slen force8bit)

/-- quote_sql_literal (export.c lines 173-266) on a non-NULL input, branches
in source order: empty yields a fresh `NULL` (empty_string_is_null) or a fresh
`''`; a 4-byte `NULL` or `null` is returned unchanged; the `∅` sentinel (only
when not in force-8-bit mode) yields a fresh `NULL`; a field of digits with at
most one dot is returned unchanged; anything else is single-quote wrapped with
embedded single quotes doubled. -/
def quote_sql_literal_nn (junk : Nat → UInt8) (s : List UInt8) (slen : Nat)
    (force8bit empty_string_is_null : Bool) : QRes × Nat :=
  if slen = 0 then
    if empty_string_is_null then (.fresh [78, 85, 76, 76], 4)
    else (.fresh [39, 39], 2)
  else if slen = 4 ∧ (s.take 4 = [78, 85, 76, 76] ∨ s.take 4 = [110, 117, 108, 108]) then
    (.same, slen)
  else if ¬force8bit ∧ slen = 3 ∧ s.take 3 = nullSentinel then (.fresh [78, 85, 76, 76], 4)
  else if ¬literalScanGo force8bit (slen + 1) false s slen then (.same, slen)
  else
    let r := quoteWrap 39 force8bit junk s slen
    (.fresh r.1, r.2)

/-- quote_sql_literal on a possibly NULL pointer: only the `slen = 0` branch
returns before a read; the strncmp and scan branches dereference NULL. -/
def quote_sql_literal (junk : Nat → UInt8) (str : Option (List UInt8)) (slen : Nat)
    (force8bit empty_string_is_null : Bool) : Except Unit (QRes × Nat) :=
  match str with
  | some s => .ok (quote_sql_literal_nn junk s slen force8bit empty_string_is_null)
  | none =>
    if slen = 0 then
      .ok (if empty_string_is_null then (.fresh [78, 85, 76, 76], 4) else (.fresh [39, 39], 2))
    else .error ()

/-- The leading-space strip loop of trim_str (export.c lines 340-344): note
the C reads `*str` before testing `*size > 0`; an exhausted slice reads the
following byte, modelled as 0 (never a space, so the loop exits). -/
def trimLeadGo : Nat → List UInt8 → Nat → List UInt8 × Nat
  | 0, s, n => (s, n)
  | f + 1, s, n =>
    if s.headD 0 = 32 ∧ n ≠ 0 then trimLeadGo f (s.drop 1) (n - 1)
    else (s, n)

/-- The trailing-space scan of trim_str (export.c lines 350-363): walks the
rest of the slice character by character, remembering the offset one past the
last non-space character; that offset becomes the new length. -/
def trimScanGo (force8bit : Bool) (s : List UInt8) : Nat → Nat → Nat → Nat → Nat
  | 0, _, _, after => after
  | f + 1, pos, n, after =>
    if n = 0 then after
    else
      let b := s.getD pos 0
      let charlen := if force8bit then 1 else utf8charlen b
      trimScanGo force8bit s f (pos + charlen) (n - charlen)
        (if b ≠ 32 then pos + charlen else after)

/-- trim_str (export.c lines 335-367): strips spaces from both ends; returns
NULL with length 0 when the field is all spaces, else the slice after the
leading spaces with the length up to one past the last non-space character. -/
def trim_str (force8bit : Bool) (str : List UInt8) (size : Nat) :
    Option (List UInt8) × Nat :=
  let r := trimLeadGo (size + 1) str size
  if r.2 ≠ 0 then
    let after := trimScanGo force8bit r.1 (r.2 + 1) 0 r.2 0
    (some (r.1.take after), after)
  else (none, 0)

/-- Modelled from the spec: the clipboard format type of pspg.h (not under
src/); the spec names plain text, CSV, TSV, and SQL INSERT in terse and
commented variants.  `INSERT_FORMAT_TYPE` and `DSV_FORMAT_TYPE` are the
pspg.h macros: insert formats are the two INSERT variants, delimiter-separated
formats are CSV and TSVC. -/
inductive ClipboardFormat where
  | TEXT : ClipboardFormat
  | CSV : ClipboardFormat
  | TSVC : ClipboardFormat
  | INSERT : ClipboardFormat
  | INSERT_COMMENT : ClipboardFormat
deriving DecidableEq

def INSERT_FORMAT_TYPE : ClipboardFormat → Bool
  | .INSERT => true
  | .INSERT_COMMENT => true
  | _ => false

def DSV_FORMAT_TYPE : ClipboardFormat → Bool
  | .CSV => true
  | .TSVC => true
  | _ => false

/-- The ExportState of export.c lines 315-330, without the FILE pointer (all
writes are returned as byte lists instead).  `colnames` is NULL or an array of
`columns` possibly-NULL captured names; `colno` is the running column index
(in the C an int that is only ever set to 0 and incremented). -/
structure ExportState where
  format : ClipboardFormat
  xmin : Int
  xmax : Int
  copy_line_extended : Bool
  table_name : Option (List UInt8)
  columns : Nat
  force8bit : Bool
  empty_string_is_null : Bool
  colno : Nat
  colnames : Option (List (Option (List UInt8)))
deriving DecidableEq

/-- The line metadata bits consulted by export_data: LINEINFO_BOOKMARK and
LINEINFO_FOUNDSTR of the external LineInfo mask. -/
structure LineInfo where
  bookmark : Bool
  foundstr : Bool
deriving DecidableEq

/-- Modelled from the spec: the external collaborators of the core that are
not under src/.  `junk i` is the uninitialized byte at offset `i` of a freshly
malloc-ed quote buffer (read by the copy loops in non-force-8-bit mode);
`dsplen` is utf_dsplen, the display width of the character starting at a byte;
`strDsplen` is utf_string_dsplen over a whole string; `setLineInfo` is
set_line_info, computing search-hit metadata for a row on demand. -/
structure Externals where
  junk : Nat → UInt8
  dsplen : UInt8 → Nat
  strDsplen : List UInt8 → Nat
  setLineInfo : List UInt8 → Option LineInfo

/-- Reading `colnames[i]` followed by printing it with %s: `.error ()` models
the undefined reads the C can reach here, namely a NULL `colnames` array, an
index outside `[0, length)` (in particular `colno - 1` at `colno = 0`), and a
NULL entry passed to %s. -/
def readColname (colnames : Option (List (Option (List UInt8)))) (i : Int) :
    Except Unit (List UInt8) :=
  match colnames with
  | none => .error ()
  | some arr =>
    if 0 ≤ i ∧ i < (arr.length : Int) then
      match arr.getD i.toNat none with
      | some name => .ok name
      | none => .error ()
    else .error ()

/-- Decimal digits of a Nat, for the %d conversions of the fprintf calls. -/
def decGo : Nat → Nat → List UInt8 → List UInt8
  | 0, _, acc => acc
  | f + 1, n, acc =>
    if n < 10 then UInt8.ofNat (48 + n) :: acc
    else decGo f (n / 10) (UInt8.ofNat (48 + n % 10) :: acc)

def decimalBytes (n : Nat) : List UInt8 := decGo (n + 1) n []

/-- The capture of a column name into `colnames` (export.c lines 412-417 and
597-602): a NULL quoting result is stored as a fresh empty string, a freshly
allocated result is stored as is, a result equal to the input pointer is
sstrndup-ed at the reported length. -/
def capturedEntry (q : QRes × Nat) (trimmed : Option (List UInt8)) :
    Option (List UInt8) :=
  match q.1 with
  | .null => some []
  | .fresh buf => some buf
  | .same => some ((trimmed.getD []).take q.2)

/-- Allocation of the colnames array on first use (export.c lines 403-407 and
591-595): `columns` NULL entries. -/
def ensureColnames (colnames : Option (List (Option (List UInt8)))) (columns : Nat) :
    List (Option (List UInt8)) :=
  colnames.getD (List.replicate columns none)

/-- The bytes a quoting result makes visible to fwrite/%.*s: the original
(trimmed) field for a same-pointer result, the fresh buffer, or nothing for a
NULL result. -/
def qresContent (q : QRes) (orig : Option (List UInt8)) : List UInt8 :=
  match q with
  | .same => orig.getD []
  | .fresh buf => buf
  | .null => []

/-- The captured names the INSERT column list enumerates (export.c lines
439-452 and 467-473): entries from index 0 up to the first NULL entry. -/
def takeWhileSome : List (Option (List UInt8)) → List (List UInt8)
  | [] => []
  | none :: _ => []
  | some x :: rest => x :: takeWhileSome rest

/-- Join with a separator, mirroring the is_first logic of export.c 441-448. -/
def joinSep (sep : List UInt8) : List (List UInt8) → List UInt8
  | [] => []
  | [x] => x
  | x :: rest => x ++ sep ++ joinSep sep rest

/-- The commented column list of export.c lines 475-493: each name on its own
line, indented from the second one on, with a `,` or `)` and a numbered
comment; `total` is the number of enumerated names. -/
def colListCommentGo (indent : Nat) (total : Nat) : Nat → List (List UInt8) → List UInt8
  | _, [] => []
  | loc, name :: rest =>
    (if loc > 0 then List.replicate indent 32 else []) ++ name ++
    (if loc < total - 1 then [44, 9, 9, 32, 45, 45, 32] ++ decimalBytes (loc + 1) ++ [46, 10]
     else [41, 9, 9, 32, 45, 45, 32] ++ decimalBytes (loc + 1) ++ [46, 10]) ++
    colListCommentGo indent total (loc + 1) rest

/-- The bytes of `INSERT INTO `. -/
def insertIntoBytes : List UInt8 := [73, 78, 83, 69, 82, 84, 32, 73, 78, 84, 79, 32]

/-- process_item (export.c lines 372-654): exports one token to the output,
returned as a byte list together with the updated state.  `typ` is the
headline role byte (100 = d for data, 78 = N for terminator, 73 = I for a
field separator), `field` the token content slice (NULL for the terminator
call), `size` its byte length, `xpos` its display position.  `.error ()`
models the NULL-pointer and out-of-bounds reads the C can reach (trim_str or
a quoting routine on a NULL field with nonzero length, fputs of a NULL table
name, and the `colnames` reads of `readColname`).  Sink writes are assumed to
succeed (errno stays 0), so the C `return false` path after a write error is
never taken in the model. -/
def process_item (ext : Externals) (e : ExportState) (typ : UInt8)
    (field : Option (List UInt8)) (size : Nat) (xpos : Int) (is_colname : Bool) :
    Except Unit (ExportState × List UInt8) :=
  if INSERT_FORMAT_TYPE e.format then
    if typ = 78 ∧ ¬is_colname then
      if e.format = .INSERT then .ok (e, [41, 59, 10])
      else do
        let name ← readColname e.colnames ((e.colno : Int) - 1)
        .ok (e, [41, 59, 9, 9, 32, 45, 45, 32] ++ decimalBytes e.colno ++
                [46, 32] ++ name ++ [10])
    else if typ = 100 then
      if e.xmin ≠ -1 ∧ (xpos ≤ e.xmin ∨ e.xmax ≤ xpos) then .ok (e, [])
      else if is_colname then
        match field with
        | none => .error ()
        | some f =>
          let arr := ensureColnames e.colnames e.columns
          let t := trim_str e.force8bit f size
          match quote_sql_identifier ext.junk t.1 t.2 e.force8bit with
          | .error u => .error u
          | .ok q =>
            .ok ({ e with colnames := some (arr.set e.colno (capturedEntry q t.1)),
                          colno := e.colno + 1 }, [])
      else
        match field with
        | none => .error ()
        | some f => do
          let head ←
            if e.colno = 0 then do
              match e.table_name with
              | none => .error ()
              | some tname =>
                let cols : List UInt8 :=
                  match e.colnames with
                  | none => []
                  | some arr =>
                    if e.format = .INSERT then
                      [40] ++ joinSep [44, 32] (takeWhileSome arr) ++ [41]
                    else
                      let indent := (if e.force8bit then tname.length
                                     else ext.strDsplen tname) + 1 + 12
                      let names := takeWhileSome arr
                      [40] ++ colListCommentGo indent names.length 0 names
                .ok (insertIntoBytes ++ tname ++ cols ++
                     (if e.format = .INSERT then [32, 86, 65, 76, 85, 69, 83, 40]
                      else [32, 32, 32, 86, 65, 76, 85, 69, 83, 40]))
            else .ok ([] : List UInt8)
          let sep ←
            if e.format = .INSERT then
              .ok (if e.colno > 0 then ([44, 32] : List UInt8) else [])
            else
              if e.colno > 0 then do
                let name ← readColname e.colnames ((e.colno : Int) - 1)
                .ok ([44, 9, 9, 32, 45, 45, 32] ++ decimalBytes e.colno ++
                     [46, 32] ++ name ++ [10] ++ List.replicate 10 32)
              else .ok ([] : List UInt8)
          let t := trim_str e.force8bit f size
          match quote_sql_literal ext.junk t.1 t.2 e.force8bit e.empty_string_is_null with
          | .error u => .error u
          | .ok q =>
            .ok ({ e with colno := e.colno + 1 },
                 head ++ sep ++ (qresContent q.1 t.1).take q.2)
    else .ok (e, [])
  else if e.format = .TEXT then
    if typ ≠ 78 then
      if (typ = 73 ∨ typ = 100) ∧ e.xmin ≠ -1 ∧ (xpos ≤ e.xmin ∨ e.xmax ≤ xpos) then
        .ok (e, [])
      else .ok (e, (field.getD []).take size)
    else .ok (e, [10])
  else
    if typ = 78 ∧ ¬e.copy_line_extended then .ok (e, [10])
    else if typ = 100 then
      if e.xmin ≠ -1 ∧ (xpos ≤ e.xmin ∨ e.xmax ≤ xpos) then .ok (e, [])
      else
        match field with
        | none => .error ()
        | some f =>
          let t := trim_str e.force8bit f size
          match csv_format ext.junk t.1 t.2 e.force8bit e.empty_string_is_null with
          | .error u => .error u
          | .ok q =>
            if e.copy_line_extended ∧ is_colname then
              let arr := ensureColnames e.colnames e.columns
              .ok ({ e with colnames := some (arr.set e.colno (capturedEntry q t.1)),
                            colno := e.colno + 1 }, [])
            else do
              let out ←
                if ¬e.copy_line_extended then
                  let sep : List UInt8 :=
                    if e.colno > 0 then
                      if e.format = .CSV then [44]
                      else if e.format = .TSVC then [9]
                      else []
                    else []
                  .ok (sep ++ (qresContent q.1 t.1).take q.2)
                else do
                  let name ← readColname e.colnames (e.colno : Int)
                  .ok (name ++ [44] ++ (qresContent q.1 t.1).take q.2 ++ [10])
              .ok ({ e with colno := e.colno + 1 }, out)
    else .ok (e, [])

/-- The format iterator of export.c lines 271-277: remaining row bytes,
remaining headline bytes, and the running display x position. -/
structure FmtLineIter where
  row : List UInt8
  headline : List UInt8
  force8bit : Bool
  xpos : Int

/-- next_char (export.c lines 279-313): ends at the end of the row string or
at a `\n` role byte of the headline; otherwise yields the role byte, the byte
length and display width of the current character, its x position, and the
advanced iterator.  The returned slice is the row remainder (the C returns the
character pointer; callers use at most the reported lengths of it).  A
headline shorter than the row reads its NUL terminator as the role byte,
modelled by `headD 0`. -/
def next_char (ext : Externals) (it : FmtLineIter) :
    Option (List UInt8 × UInt8 × Nat × Nat × Int × FmtLineIter) :=
  if it.row = [] ∨ it.headline.headD 0 = 10 then none
  else
    let typ := it.headline.headD 0
    let size := if it.force8bit then 1 else utf8charlen (it.row.headD 0)
    let width := if it.force8bit then 1 else ext.dsplen (it.row.headD 0)
    some (it.row, typ, size, width, it.xpos,
      { it with row := it.row.drop size, headline := it.headline.drop width,
                xpos := it.xpos + width })

/-- The tail of the per-row loop of export.c lines 917-929: flush a pending
accumulated field as one data token, then send the terminator token. -/
def finishRow (ext : Externals) (is_colname : Bool) (e : ExportState)
    (field : Option (List UInt8)) (field_size : Nat) (field_xpos : Int) :
    Except Unit (ExportState × List UInt8) := do
  let r1 ←
    match field with
    | some f => process_item ext e 100 (some f) field_size field_xpos is_colname
    | none => .ok (e, ([] : List UInt8))
  let r2 ← process_item ext r1.1 78 none 0 (-1) is_colname
  .ok (r2.1, r1.2 ++ r2.2)

/-- The per-row token loop of export.c lines 883-929: consecutive data-role
characters are coalesced into one field (first pointer, summed byte size, last
x position) and flushed when a non-data role arrives; every other token is
passed through on its own.  The local `colno` counter of the C (incremented at
role I, line 913-914) is never read and is omitted.  Each iteration consumes
at least one row byte, so fuel `row.length + 1` suffices; fuel exhaustion
falls back to the loop exit path. -/
def export_row_tokens (ext : Externals) (is_colname : Bool) :
    Nat → ExportState → FmtLineIter → Option (List UInt8) → Nat → Int →
    Except Unit (ExportState × List UInt8)
  | 0, e, _, field, fs, fx => finishRow ext is_colname e field fs fx
  | fuel + 1, e, it, field, fs, fx =>
    match next_char ext it with
    | none => finishRow ext is_colname e field fs fx
    | some (ptr, typ, size, _, xpos, it2) =>
      if typ = 100 then
        export_row_tokens ext is_colname fuel e it2
          (match field with | none => some ptr | some f => some f) (fs + size) xpos
      else do
        let r1 ←
          match field with
          | some f => process_item ext e 100 (some f) fs fx is_colname
          | none => .ok (e, ([] : List UInt8))
        let r2 ← process_item ext r1.1 typ (some ptr) size xpos is_colname
        let r3 ← export_row_tokens ext is_colname fuel r2.1 it2 none 0 (-1)
        .ok (r3.1, r1.2 ++ r2.2 ++ r3.2)

/-- The pspg copy commands export_data dispatches on (commands.h, external to
src/, named from the spec's copy-command variants). -/
inductive PspgCommand where
  | Copy : PspgCommand
  | CopyLine : PspgCommand
  | CopyLineExtended : PspgCommand
  | CopyColumn : PspgCommand
  | CopyTopLines : PspgCommand
  | CopyBottomLines : PspgCommand
  | CopyMarkedLines : PspgCommand
  | CopySearchedLines : PspgCommand
  | CopySelected : PspgCommand
deriving DecidableEq

/-- The option fields export_data consults. -/
structure Options where
  force8bit : Bool
  empty_string_is_null : Bool
  no_cursor : Bool
  vertical_cursor : Bool

/-- The selection fields of the screen descriptor export_data consults. -/
structure ScrDesc where
  selected_first_row : Int
  selected_rows : Int
  selected_first_column : Int
  selected_columns : Int

/-- The layout fields of the data descriptor export_data consults.  `cranges`
holds the per-column display extents (xmin, xmax) indexed by column number. -/
structure DataDesc where
  first_data_row : Int
  last_row : Int
  last_data_row : Int
  columns : Nat
  border_top_row : Int
  border_bottom_row : Int
  border_head_row : Int
  fixed_rows : Int
  footer_row : Int
  headline_transl : List UInt8
  cranges : List (Int × Int)

/-- Conversion of a C double to int (truncation toward zero), with the double
arithmetic modelled exactly over the rationals. -/
def cTruncToInt (q : ℚ) : ℤ := if q < 0 then ⌈q⌉ else ⌊q⌋

/-- The row-range computation of the cmd_CopyTopLines / cmd_CopyBottomLines
branch (export.c lines 762-771), after the negative-argument check: a nonzero
percent recomputes `rows` as total data rows times percent/100 (double
arithmetic, truncated on assignment to int); bottom-lines skips all but the
last `rows` data rows; the result is the new `(min_row, max_row)`. -/
def copyTopBottomRange (first_data_row last_data_row : Int) (cmd : PspgCommand)
    (rows0 : Int) (percent : ℚ) (min_row : Int) : Int × Int :=
  let rows := if percent ≠ 0 then
                cTruncToInt (((last_data_row - first_data_row + 1 : Int) : ℚ) * (percent / 100))
              else rows0
  let skip := if cmd = .CopyBottomLines then last_data_row - first_data_row + 1 - rows else 0
  (min_row + skip, first_data_row + rows - 1 + skip)

/-- The number of data rows `rn` (with `first_data_row ≤ rn ≤ last_data_row`,
the filter of export.c line 826) that the computed row range `mn ≤ rn ≤ mx`
(line 828) lets through. -/
def rowsSelected (first_data_row last_data_row mn mx : Int) : Nat :=
  (((List.range (last_data_row - first_data_row + 1).toNat).map
      fun k => first_data_row + Int.ofNat k).filter
    fun rn => decide (mn ≤ rn ∧ rn ≤ mx)).length

/-- The row loop of export.c lines 810-930 over the lines the external line
buffer iterator yields as `(row text, optional line info, row number)`
triples.  A data row (first_data_row ≤ rn ≤ last_data_row) is dropped when
outside `[min_row, max_row]`, when cmd_CopyMarkedLines finds no bookmark,
when cmd_CopyLine is on another row, or when cmd_CopySearchedLines finds no
search hit (line info recomputed via the external set_line_info); any other
row is a border / header / footer row, `is_colname` per line 852-855, dropped
per the print flags.  A surviving row runs the token loop with the per-row
state reset `colno := 0`. -/
def export_rows (ext : Externals) (opts : Options) (desc : DataDesc)
    (cmd : PspgCommand) (cursor_row : Int) (min_row max_row : Int)
    (print_header print_footer print_border print_header_line : Bool) :
    ExportState → List (List UInt8 × Option LineInfo × Int) →
    Except Unit (ExportState × List UInt8)
  | e, [] => .ok (e, [])
  | e, (rowstr, linfo0, rn) :: rest =>
    let decision : Option Bool :=
      if desc.first_data_row ≤ rn ∧ rn ≤ desc.last_data_row then
        if rn < min_row ∨ rn > max_row then none
        else if (if cmd = .CopyMarkedLines then
                   (match linfo0 with | none => true | some li => !li.bookmark)
                 else if cmd = .CopyLine then decide (rn - desc.first_data_row ≠ cursor_row)
                 else false) = true then none
        else if cmd = .CopySearchedLines ∧
                (match ext.setLineInfo rowstr with
                 | none => true
                 | some li => !li.foundstr) = true then
          none
        else some false
      else
        let ic := rn ≠ desc.border_top_row ∧ rn ≠ desc.border_bottom_row ∧
                  rn ≠ desc.border_head_row ∧ rn ≤ desc.fixed_rows
        if ¬print_border ∧ (rn = desc.border_top_row ∨ rn = desc.border_bottom_row) then none
        else if ¬print_header_line ∧ rn = desc.border_head_row then none
        else if ¬print_header ∧ rn < desc.fixed_rows then none
        else if ¬print_footer ∧ desc.footer_row ≠ -1 ∧ desc.footer_row ≤ rn then none
        else some (decide ic)
    match decision with
    | none =>
      export_rows ext opts desc cmd cursor_row min_row max_row
        print_header print_footer print_border print_header_line e rest
    | some is_colname =>
      match export_row_tokens ext is_colname (rowstr.length + 1)
              { e with colno := 0 }
              ⟨rowstr, desc.headline_transl, opts.force8bit, 0⟩ none 0 (-1) with
      | .error u => .error u
      | .ok r1 =>
        match export_rows ext opts desc cmd cursor_row min_row max_row
                print_header print_footer print_border print_header_line r1.1 rest with
        | .error u => .error u
        | .ok r2 => .ok (r2.1, r1.2 ++ r2.2)

/-- export_data (export.c lines 660-948).  The output sink is returned as a
byte list; the result mirrors the C bool (false exactly on the
negative-argument early return, since sink writes are assumed to succeed).
The external line buffer iteration is the `lines` list.  The C frees the
captured names and the quoted table identifier at exit; allocation is not
modelled.  A NULL caller table name would be dereferenced by strlen before
the argument check; `table_name` is a (non-NULL) byte string as the caller
contract requires.  Mirrored faithfully: `expstate.format` keeps the format
argument as passed, while the local `format` variable is overwritten to CSV
for cmd_CopyLineExtended with a non-DSV format (lines 691 vs 708-709). -/
def export_data (ext : Externals) (opts : Options) (scrdesc : ScrDesc)
    (desc : DataDesc) (cursor_row cursor_column : Int) (rows : Int) (percent : ℚ)
    (table_name : List UInt8) (cmd : PspgCommand) (format0 : ClipboardFormat)
    (lines : List (List UInt8 × Option LineInfo × Int)) :
    Except Unit (Bool × List UInt8) :=
  let min_row := desc.first_data_row
  let max_row := desc.last_row
  let e : ExportState :=
    { format := format0, xmin := -1, xmax := -1,
      copy_line_extended := cmd = .CopyLineExtended, table_name := none,
      columns := desc.columns, force8bit := opts.force8bit,
      empty_string_is_null := opts.empty_string_is_null, colno := 0,
      colnames := none }
  let has_selection :=
    (scrdesc.selected_first_row ≠ -1 ∧ scrdesc.selected_rows > 0) ∨
    (scrdesc.selected_first_column ≠ -1 ∧ scrdesc.selected_columns > 0)
  let format := if cmd = .CopyLineExtended ∧ ¬DSV_FORMAT_TYPE format0 then
                  ClipboardFormat.CSV
                else format0
  let e :=
    if cmd = .CopyLineExtended ∨ INSERT_FORMAT_TYPE format then
      if INSERT_FORMAT_TYPE format then
        let q := quote_sql_identifier_nn ext.junk table_name table_name.length opts.force8bit
        { e with table_name := some (match q.1 with | .fresh buf => buf | _ => table_name) }
      else e
    else e
  let save_column_names := cmd = .CopyLineExtended ∨ INSERT_FORMAT_TYPE format
  let mm :=
    if cmd = .CopyLine ∨ cmd = .CopyLineExtended ∨
       (cmd = .Copy ∧ ¬opts.no_cursor ∧ ¬has_selection) then
      (cursor_row + desc.first_data_row, cursor_row + desc.first_data_row, false)
    else (min_row, max_row, true)
  let min_row := mm.1
  let max_row := mm.2.1
  let print_footer := mm.2.2
  let ev :=
    if (cmd = .Copy ∧ opts.vertical_cursor) ∨ cmd = .CopyColumn then
      let cr := desc.cranges.getD (cursor_column - 1).toNat (-1, -1)
      ({ e with xmin := cr.1, xmax := cr.2 }, false)
    else (e, print_footer)
  let e := ev.1
  let print_footer := ev.2
  let ph :=
    if cmd = .Copy ∧ ¬opts.no_cursor ∧ opts.vertical_cursor then (false, false, false)
    else (true, true, true)
  let print_header := ph.1
  let print_header_line := ph.2.1
  let print_border := ph.2.2
  if (cmd = .CopyTopLines ∨ cmd = .CopyBottomLines) ∧ (rows < 0 ∨ percent < 0) then
    .ok (false, [])
  else
    let mm2 :=
      if cmd = .CopyTopLines ∨ cmd = .CopyBottomLines then
        (copyTopBottomRange desc.first_data_row desc.last_data_row cmd rows percent min_row,
         false)
      else ((min_row, max_row), print_footer)
    let min_row := mm2.1.1
    let max_row := mm2.1.2
    let print_footer := mm2.2
    let print_footer :=
      if cmd = .CopyMarkedLines ∨ cmd = .CopySearchedLines then false else print_footer
    let sel :=
      if (cmd = .Copy ∧ has_selection) ∨ cmd = .CopySelected then
        let mnmx :=
          if scrdesc.selected_first_row ≠ -1 then
            (scrdesc.selected_first_row + desc.first_data_row,
             scrdesc.selected_first_row + desc.first_data_row + scrdesc.selected_rows - 1)
          else (min_row, max_row)
        let e2 :=
          if scrdesc.selected_first_column ≠ -1 ∧ scrdesc.selected_columns > 0 then
            { e with xmin := scrdesc.selected_first_column,
                     xmax := scrdesc.selected_first_column + scrdesc.selected_columns - 1 }
          else e
        let pf := if mnmx.1 > desc.first_data_row ∨ mnmx.2 < desc.last_data_row then
                    false
                  else print_footer
        (mnmx, e2, pf)
      else ((min_row, max_row), e, print_footer)
    let min_row := sel.1.1
    let max_row := sel.1.2
    let e := sel.2.1
    let print_footer := sel.2.2
    let pt :=
      if format ≠ ClipboardFormat.TEXT then (false, false, false)
      else (print_border, print_footer, print_header_line)
    let print_border := pt.1
    let print_footer := pt.2.1
    let print_header_line := pt.2.2
    let print_header := if save_column_names then true else print_header
    match export_rows ext opts desc cmd cursor_row min_row max_row
            print_header print_footer print_border print_header_line e lines with
    | .error u => .error u
    | .ok r => .ok (true, r.2)

/-- What the force-8-bit copy loop produces: the field with each embedded
quote byte doubled, appended to the buffer so far; the reported length grows
only by the field length (the doubled quote bytes are not counted). -/
theorem quoteLoopGo_force8bit (q : UInt8) (junk : Nat → UInt8) :
    ∀ (s : List UInt8) (fuel : Nat), s.length ≤ fuel → ∀ (out : List UInt8) (slen0 : Nat),
      quoteLoopGo q true junk fuel out s s.length slen0 =
        (out ++ s.flatMap (fun b => if b = q then [q, b] else [b]), slen0 + s.length) := by
  intro s
  induction s with
  | nil =>
    intro fuel _ out slen0
    cases fuel <;> simp [quoteLoopGo]
  | cons b t ih =>
    intro fuel hf out slen0
    cases fuel with
    | zero => simp at hf
    | succ f =>
      have hf2 : t.length ≤ f := by simpa using hf
      by_cases hb : b = q <;>
        simp [quoteLoopGo, hb, ih f hf2, List.range_succ] <;> omega

/-- Double each embedded `q` and wrap the whole field in `q`: the buffer
content the quoting routines build for a field that needs quoting. -/
def dblWrap (q : UInt8) (s : List UInt8) : List UInt8 :=
  [q] ++ s.flatMap (fun b => if b = q then [q, b] else [b]) ++ [q]

theorem quoteWrap_force8bit (q : UInt8) (junk : Nat → UInt8) (s : List UInt8) :
    quoteWrap q true junk s s.length = (dblWrap q s, s.length + 2) := by
  unfold quoteWrap dblWrap
  rw [quoteLoopGo_force8bit q junk s (s.length + 1) (by omega) [q] 1]
  simp
  omega

theorem dblWrap_length (q : UInt8) (s : List UInt8) :
    (dblWrap q s).length = s.length + s.count q + 2 := by
  unfold dblWrap
  induction s with
  | nil => simp
  | cons b t ih =>
    by_cases hb : b = q <;> simp_all [List.count_cons] <;> omega

/-- A field without any of the five special bytes is never flagged by the CSV
scan, in either character mode. -/
theorem csvScanGo_none (f8 : Bool) :
    ∀ (fuel : Nat) (s : List UInt8), s.length ≤ fuel →
      (∀ b ∈ s, ¬(b = 34 ∨ b = 44 ∨ b = 9 ∨ b = 13 ∨ b = 10)) →
      csvScanGo f8 fuel s s.length = false := by
  intro fuel
  induction fuel with
  | zero => intro s _ _; simp [csvScanGo]
  | succ f ih =>
    intro s hf hs
    match s with
    | [] => simp [csvScanGo]
    | b :: t =>
      have hb := hs b (by simp)
      have hlen : (b :: t).length = t.length + 1 := by simp
      simp only [csvScanGo, hlen]
      rw [if_neg (by omega)]
      simp only [List.headD_cons]
      rw [if_neg hb]
      have hsize : 1 ≤ (if f8 then 1 else utf8charlen b) := by
        split
        · omega
        · exact utf8charlen_pos b
      have hdl : ((b :: t).drop (if f8 then 1 else utf8charlen b)).length
          = t.length + 1 - (if f8 then 1 else utf8charlen b) := by
        simp [List.length_drop]
      rw [← hdl]
      exact ih _ (by simp [List.length_drop]; omega)
        (fun x hx => hs x (List.mem_of_mem_drop hx))

/-- In force-8-bit mode the CSV scan flags every field holding a double
quote. -/
theorem csvScanGo_mem :
    ∀ (fuel : Nat) (s : List UInt8), s.length ≤ fuel → 34 ∈ s →
      csvScanGo true fuel s s.length = true := by
  intro fuel
  induction fuel with
  | zero =>
    intro s hf hm
    have hnil : s = [] := List.length_eq_zero.mp (Nat.le_zero.mp hf)
    subst hnil
    simp at hm
  | succ f ih =>
    intro s hf hm
    match s with
    | [] => simp at hm
    | b :: t =>
      have hlen : (b :: t).length = t.length + 1 := by simp
      simp only [csvScanGo, hlen]
      rw [if_neg (by omega)]
      simp only [List.headD_cons]
      by_cases hb : b = 34 ∨ b = 44 ∨ b = 9 ∨ b = 13 ∨ b = 10
      · rw [if_pos hb]
      · rw [if_neg hb]
        have hbq : b ≠ 34 := by tauto
        have hmt : 34 ∈ t := by
          rcases List.mem_cons.mp hm with h | h
          · exact absurd h.symm hbq
          · exact h
        simpa using ih t (by simpa using hf) hmt

/-- In force-8-bit mode the literal scan flags every NUL-free field holding a
single quote, whatever the has_dot state. -/
theorem literalScanGo_mem :
    ∀ (fuel : Nat) (s : List UInt8) (hd : Bool), s.length ≤ fuel →
      (∀ b ∈ s, b ≠ 0) → 39 ∈ s →
      literalScanGo true fuel hd s s.length = true := by
  intro fuel
  induction fuel with
  | zero =>
    intro s hd hf _ hm
    have hnil : s = [] := List.length_eq_zero.mp (Nat.le_zero.mp hf)
    subst hnil
    simp at hm
  | succ f ih =>
    intro s hd hf h0 hm
    match s with
    | [] => simp at hm
    | b :: t =>
      have hlen : (b :: t).length = t.length + 1 := by simp
      simp only [literalScanGo, hlen, List.headD_cons]
      rw [if_pos ⟨h0 b (by simp), by omega⟩]
      by_cases h46 : b = 46
      · subst h46
        have hmt : 39 ∈ t := by
          rcases List.mem_cons.mp hm with h | h
          · exact absurd h.symm (by decide)
          · exact h
        cases hd with
        | true => simp
        | false =>
          simpa using ih t true (by simpa using hf)
            (fun x hx => h0 x (List.mem_cons_of_mem 46 hx)) hmt
      · rw [if_neg h46]
        by_cases hdig : 48 ≤ b ∧ b ≤ 57
        · have hbq : b ≠ 39 := by
            intro hb
            subst hb
            exact absurd hdig (by decide)
          have hmt : 39 ∈ t := by
            rcases List.mem_cons.mp hm with h | h
            · exact absurd h.symm hbq
            · exact h
          rw [if_neg (by simpa using hdig)]
          simpa using ih t hd (by simpa using hf)
            (fun x hx => h0 x (List.mem_cons_of_mem b hx)) hmt
        · rw [if_pos (by simpa using hdig)]

/-- A field of digits with at most one dot (counting an already-seen dot in
`hd`) is never flagged by the literal scan, in either character mode. -/
theorem literalScanGo_numeric (f8 : Bool) :
    ∀ (fuel : Nat) (s : List UInt8) (hd : Bool), s.length ≤ fuel →
      (∀ b ∈ s, (48 ≤ b ∧ b ≤ 57) ∨ b = 46) →
      s.count 46 + (if hd then 1 else 0) ≤ 1 →
      literalScanGo f8 fuel hd s s.length = false := by
  intro fuel
  induction fuel with
  | zero => intro s hd _ _ _; simp [literalScanGo]
  | succ f ih =>
    intro s hd hf hdig hcnt
    match s with
    | [] => simp [literalScanGo]
    | b :: t =>
      have hb := hdig b (by simp)
      have hb0 : b ≠ 0 := by
        rcases hb with ⟨h1, _⟩ | h
        · intro he; rw [he] at h1; exact absurd h1 (by decide)
        · rw [h]; decide
      have hlt : b < 128 := by
        rcases hb with ⟨_, h2⟩ | h
        · simp only [UInt8.lt_def, UInt8.le_def, BitVec.lt_def, BitVec.le_def] at h2 ⊢
          have e1 : ((57 : UInt8).toBitVec).toNat = 57 := rfl
          have e2 : ((128 : UInt8).toBitVec).toNat = 128 := rfl
          rw [e1] at h2
          rw [e2]
          omega
        · rw [h]; decide
      have hsize : (if f8 then 1 else utf8charlen b) = 1 := by
        split
        · rfl
        · exact utf8charlen_ascii b hlt
      have hlen : (b :: t).length = t.length + 1 := by simp
      simp only [literalScanGo, hlen, List.headD_cons, hsize]
      rw [if_pos ⟨hb0, by omega⟩]
      have hrec : ∀ hd2 : Bool, t.count 46 + (if hd2 then 1 else 0) ≤ 1 →
          literalScanGo f8 f hd2 t t.length = false := fun hd2 hc =>
        ih t hd2 (by simpa using hf) (fun x hx => hdig x (List.mem_cons_of_mem b hx)) hc
      by_cases h46 : b = 46
      · subst h46
        cases hd with
        | true =>
          simp [List.count_cons] at hcnt
        | false =>
          simp [List.count_cons] at hcnt
          simpa using hrec true (by simp [hcnt])
      · have hdg : 48 ≤ b ∧ b ≤ 57 := by tauto
        rw [if_neg h46, if_neg (by simpa using hdg)]
        have hbeq : (b == 46) = false := by simpa using h46
        simp only [List.count_cons, hbeq] at hcnt
        simp at hcnt
        simpa using hrec hd (by omega)

/-- The copy loop only appends to the buffer written so far. -/
theorem quoteLoopGo_append (q : UInt8) (f8 : Bool) (junk : Nat → UInt8) :
    ∀ (fuel : Nat) (out s : List UInt8) (n slen : Nat),
      ∃ t, (quoteLoopGo q f8 junk fuel out s n slen).1 = out ++ t := by
  intro fuel
  induction fuel with
  | zero => intro out s n slen; exact ⟨[], by simp [quoteLoopGo]⟩
  | succ f ih =>
    intro out s n slen
    by_cases hn : n = 0
    · exact ⟨[], by simp [quoteLoopGo, hn]⟩
    · simp only [quoteLoopGo]
      rw [if_neg hn]
      have key : ∀ (out2 s2 : List UInt8) (n2 slen2 : Nat) (y : List UInt8),
          out2 = out ++ y →
          ∃ t, (quoteLoopGo q f8 junk f out2 s2 n2 slen2).1 = out ++ t := by
        intro out2 s2 n2 slen2 y hy
        obtain ⟨t, ht⟩ := ih out2 s2 n2 slen2
        exact ⟨y ++ t, by rw [ht, hy, List.append_assoc]⟩
      by_cases hq : s.headD 0 = q
      · rw [if_pos hq]
        exact key _ _ _ _ _ (List.append_assoc _ _ _)
      · rw [if_neg hq]
        exact key _ _ _ _ _ rfl

/-- A fresh buffer built by the wrap step starts with the quote byte. -/
theorem quoteWrap_headD (q : UInt8) (f8 : Bool) (junk : Nat → UInt8)
    (s : List UInt8) (slen : Nat) :
    ((quoteWrap q f8 junk s slen).1).headD 0 = q := by
  unfold quoteWrap
  obtain ⟨t, ht⟩ := quoteLoopGo_append q f8 junk (slen + 1) [q] s slen 1
  simp [ht]

/-- Helper: trim_str either returns NULL with length 0 or a slice. -/
theorem trim_str_cases (f8 : Bool) (s : List UInt8) (n : Nat) :
    trim_str f8 s n = (none, 0) ∨ ∃ t m, trim_str f8 s n = (some t, m) := by
  simp only [trim_str]
  split
  · right; exact ⟨_, _, rfl⟩
  · left; rfl

/-- Helper: a quoting call whose first byte is a double quote returns the
same pointer unchanged (export.c line 111). -/
theorem quote_sql_identifier_head34 (j : Nat → UInt8) (s2 : List UInt8) (m : Nat)
    (g : Bool) (h : s2.headD 0 = 34) :
    quote_sql_identifier j (some s2) m g = .ok (.same, m) := by
  simp only [quote_sql_identifier, quote_sql_identifier_nn]
  rw [if_pos h]

/-- C7: csv_format applied to an empty field (length 0) with the null-as-empty
flag false returns a fresh two-byte `""` buffer and reports length 2; with the
flag true it returns a NULL result and reports length 0. -/
theorem csv_format_empty_field (junk : Nat → UInt8) (f8 : Bool) :
    csv_format junk (some []) 0 f8 false = .ok (.fresh [34, 34], 2) ∧
    csv_format junk (some []) 0 f8 true = .ok (.null, 0) := by
  constructor <;> simp [csv_format, csv_format_nn]

/-- C4: quote_sql_identifier returns an empty string (first byte NUL or
reported length 0) unchanged, but a NULL pointer is dereferenced (export.c
line 111 reads `*str` before the NULL test on line 114), modelled as the
error result: the claim that no byte of a null input is ever read does not
hold of the code. -/
theorem quote_sql_identifier_null_dereference (junk : Nat → UInt8) (slen : Nat)
    (f8 : Bool) :
    quote_sql_identifier junk none slen f8 = .error () ∧
    quote_sql_identifier junk (some []) 0 f8 = .ok (.same, 0) ∧
    (∀ s : List UInt8, quote_sql_identifier junk (some s) 0 f8 = .ok (.same, 0)) := by
  refine ⟨rfl, by simp [quote_sql_identifier, quote_sql_identifier_nn], ?_⟩
  intro s
  by_cases h34 : s.headD 0 = 34
  · exact quote_sql_identifier_head34 junk s 0 f8 h34
  · simp only [quote_sql_identifier, quote_sql_identifier_nn]
    rw [if_neg h34, if_pos (Or.inr True.intro)]

/-- C8: quote_sql_identifier is idempotent: an identifier whose first byte is
a double quote is returned as the same pointer with the length unchanged, and
every freshly quoted buffer the function produces starts with a double quote,
so quoting it again returns it unchanged. -/
theorem quote_sql_identifier_idempotent :
    ∀ (junk : Nat → UInt8) (s : List UInt8) (slen : Nat) (f8 : Bool),
      (s.headD 0 = 34 →
        quote_sql_identifier junk (some s) slen f8 = .ok (.same, slen)) ∧
      (∀ (junk2 : Nat → UInt8) (f82 : Bool) (buf : List UInt8) (n : Nat),
        quote_sql_identifier junk (some s) slen f8 = .ok (.fresh buf, n) →
        quote_sql_identifier junk2 (some buf) n f82 = .ok (.same, n)) := by
  intro junk s slen f8
  refine ⟨quote_sql_identifier_head34 junk s slen f8, ?_⟩
  intro junk2 f82 buf n h
  have hfresh : quote_sql_identifier_nn junk s slen f8 = (.fresh buf, n) := by
    simpa [quote_sql_identifier] using h
  have hbuf : buf.headD 0 = 34 := by
    simp only [quote_sql_identifier_nn] at hfresh
    split_ifs at hfresh
    all_goals simp only [Prod.mk.injEq, QRes.fresh.injEq, reduceCtorEq, false_and] at hfresh
    all_goals
      rw [← hfresh.1]
      exact quoteWrap_headD 34 f8 junk s slen
  exact quote_sql_identifier_head34 junk2 buf n f82 hbuf

/-- C8 witness: quoting the already-quoted identifier `"x"` returns it
unchanged, and re-quoting the fresh buffer produced for `X` returns that
buffer unchanged. -/
theorem quote_sql_identifier_idempotent_witness :
    quote_sql_identifier (fun _ => 0) (some [34, 120, 34]) 3 true = .ok (.same, 3) ∧
    quote_sql_identifier (fun _ => 0) (some [34, 88, 34]) 3 true = .ok (.same, 3) :=
  ⟨(quote_sql_identifier_idempotent (fun _ => 0) [34, 120, 34] 3 true).1 (by decide),
   (quote_sql_identifier_idempotent (fun _ => 0) [88] 1 true).2
     (fun _ => 0) true [34, 88, 34] 3 (by decide)⟩

/-- C3 counterexample: the 3-byte NULL sentinel glyph contains none of the
five special bytes and is non-empty, yet csv_format (outside force-8-bit
mode) does not return it unchanged: it returns NULL with length 0. -/
theorem csv_format_sentinel_cex :
    csv_format (fun _ => 0) (some [226, 136, 133]) 3 false false = .ok (.null, 0) ∧
    (∀ b ∈ [(226 : UInt8), 136, 133], ¬(b = 34 ∨ b = 44 ∨ b = 9 ∨ b = 13 ∨ b = 10)) ∧
    (QRes.null, (0 : Nat)) ≠ (QRes.same, 3) :=
  ⟨rfl, by decide, by decide⟩

/-- C3 amended: every non-empty field containing none of double quote, comma,
tab, CR, LF is returned by csv_format as the input pointer with the length
unchanged, EXCEPT the 3-byte NULL sentinel glyph in non-force-8-bit mode
(which becomes a NULL result of length 0, as the counterexample shows). -/
theorem csv_format_harmless_unchanged :
    ∀ (junk : Nat → UInt8) (s : List UInt8) (f8 esin : Bool),
      s ≠ [] →
      (∀ b ∈ s, ¬(b = 34 ∨ b = 44 ∨ b = 9 ∨ b = 13 ∨ b = 10)) →
      ¬(f8 = false ∧ s = nullSentinel) →
      csv_format junk (some s) s.length f8 esin = .ok (.same, s.length) := by
  intro junk s f8 esin hne hs hsent
  have hscan : csvScanGo f8 (s.length + 1) s s.length = false :=
    csvScanGo_none f8 (s.length + 1) s (by omega) hs
  have hc1 : ¬(¬f8 = true ∧ s.length = 3 ∧ s.take 3 = nullSentinel) := by
    rintro ⟨hf8, hl3, htk⟩
    cases f8 with
    | true => exact hf8 rfl
    | false =>
      have hts : s.take 3 = s := by rw [← hl3]; exact List.take_length s
      exact hsent ⟨rfl, hts.symm.trans htk⟩
  have hc2 : ¬(s.length = 0) := fun h => hne (List.length_eq_zero.mp h)
  simp only [csv_format, csv_format_nn]
  rw [if_neg hc1, if_neg hc2, if_pos (by rw [hscan]; decide)]

/-- C3 witness: the plain two-byte field `hi` passes through csv_format
unchanged. -/
theorem csv_format_harmless_unchanged_witness :
    csv_format (fun _ => 0) (some [104, 105]) 2 true false = .ok (.same, 2) :=
  csv_format_harmless_unchanged (fun _ => 0) [104, 105] true false
    (by decide) (by decide) (by decide)

/-- C1 counterexample: for the one-byte field `"` (one embedded quote), both
csv_format and quote_sql_literal report length 3 = original + 2, not
original + 2 × quote_count + 2 = 5; the buffer holds 4 bytes, so the
reported length does not even cover the closing quote. -/
theorem quote_doubling_slen_cex :
    csv_format (fun _ => 0) (some [34]) 1 true false = .ok (.fresh [34, 34, 34, 34], 3) ∧
    quote_sql_literal (fun _ => 0) (some [39]) 1 true false = .ok (.fresh [39, 39, 39, 39], 3) ∧
    (3 : Nat) ≠ 1 + 2 * 1 + 2 :=
  ⟨rfl, rfl, by decide⟩

/-- C1 amended (stated in force-8-bit mode; in UTF-8 mode the copy loop sizes
its steps from uninitialized buffer bytes, so its behaviour is not defined): a
field containing the quote character is returned as a fresh buffer wrapping
the field in quotes with every embedded quote doubled, the buffer holding
original + quote_count + 2 bytes, while the reported slen is original + 2
(the doubled quote bytes are written but not counted). -/
theorem quote_doubling_slen :
    ∀ (junk : Nat → UInt8) (s : List UInt8) (esin : Bool),
      (34 ∈ s →
        csv_format junk (some s) s.length true esin
          = .ok (.fresh (dblWrap 34 s), s.length + 2)) ∧
      ((∀ b ∈ s, b ≠ 0) → 39 ∈ s →
        quote_sql_literal junk (some s) s.length true esin
          = .ok (.fresh (dblWrap 39 s), s.length + 2)) ∧
      (dblWrap 34 s).length = s.length + s.count 34 + 2 ∧
      (dblWrap 39 s).length = s.length + s.count 39 + 2 := by
  intro junk s esin
  refine ⟨?_, ?_, dblWrap_length 34 s, dblWrap_length 39 s⟩
  · intro hm
    have hne : ¬(s.length = 0) := by
      intro h
      rw [List.length_eq_zero.mp h] at hm
      simp at hm
    have hscan : csvScanGo true (s.length + 1) s s.length = true :=
      csvScanGo_mem (s.length + 1) s (by omega) hm
    have hwrap := quoteWrap_force8bit 34 junk s
    simp only [csv_format, csv_format_nn]
    rw [if_neg (by simp), if_neg hne, if_neg (by rw [hscan]; decide), hwrap]
  · intro h0 hm
    have hne : ¬(s.length = 0) := by
      intro h
      rw [List.length_eq_zero.mp h] at hm
      simp at hm
    have hscan : literalScanGo true (s.length + 1) false s s.length = true :=
      literalScanGo_mem (s.length + 1) s false (by omega) h0 hm
    have hnull : ¬(s.length = 4 ∧
        (s.take 4 = [78, 85, 76, 76] ∨ s.take 4 = [110, 117, 108, 108])) := by
      rintro ⟨hl, hc⟩
      have hts : s.take 4 = s := by rw [← hl]; exact List.take_length s
      rcases hc with hc | hc <;> rw [hts] at hc <;> rw [hc] at hm <;>
        exact absurd hm (by decide)
    have hwrap := quoteWrap_force8bit 39 junk s
    simp only [quote_sql_literal, quote_sql_literal_nn]
    rw [if_neg hne, if_neg hnull, if_neg (by simp), if_neg (by rw [hscan]; decide), hwrap]

/-- C1 witness: the field `a"b` is wrapped and doubled into the 6-byte buffer
holding the text with quotes doubled, while the reported length is 5 (3 + 2)
and the buffer length is 3 + 1 + 2. -/
theorem quote_doubling_slen_witness :
    csv_format (fun _ => 0) (some [97, 34, 98]) 3 true false
      = .ok (.fresh [34, 97, 34, 34, 98, 34], 5) ∧
    (dblWrap 34 [97, 34, 98]).length = 3 + 1 + 2 :=
  ⟨((quote_doubling_slen (fun _ => 0) [97, 34, 98] false).1 (by decide)).trans rfl,
   by decide⟩

/-- Converse of the numeric pass-through: in force-8-bit mode the literal
scan flags every NUL-free field that holds a byte which is neither digit nor
dot, or whose dots (counting one already seen in `hd`) number at least two. -/
theorem literalScanGo_flagged :
    ∀ (fuel : Nat) (s : List UInt8) (hd : Bool), s.length ≤ fuel →
      (∀ b ∈ s, b ≠ 0) →
      ((∃ b ∈ s, ¬((48 ≤ b ∧ b ≤ 57) ∨ b = 46)) ∨
        2 ≤ s.count 46 + (if hd then 1 else 0)) →
      literalScanGo true fuel hd s s.length = true := by
  intro fuel
  induction fuel with
  | zero =>
    intro s hd hf _ hv
    have hnil : s = [] := List.length_eq_zero.mp (Nat.le_zero.mp hf)
    subst hnil
    rcases hv with ⟨b, hb, _⟩ | hc
    · simp at hb
    · simp at hc
      split at hc <;> omega
  | succ f ih =>
    intro s hd hf h0 hv
    match s with
    | [] =>
      rcases hv with ⟨b, hb, _⟩ | hc
      · simp at hb
      · simp at hc
        split at hc <;> omega
    | b :: t =>
      have hlen : (b :: t).length = t.length + 1 := by simp
      simp only [literalScanGo, hlen, List.headD_cons]
      rw [if_pos ⟨h0 b (by simp), by omega⟩]
      by_cases h46 : b = 46
      · subst h46
        cases hd with
        | true => simp
        | false =>
          have hv2 : (∃ b ∈ t, ¬((48 ≤ b ∧ b ≤ 57) ∨ b = 46)) ∨
              2 ≤ t.count 46 + (if true then 1 else 0) := by
            rcases hv with ⟨b2, hb2, hviol⟩ | hc
            · rcases List.mem_cons.mp hb2 with h | h
              · exact absurd hviol (by rw [h]; decide)
              · exact Or.inl ⟨b2, h, hviol⟩
            · right
              simp at hc ⊢
              exact hc
          simpa using ih t true (by simpa using hf)
            (fun x hx => h0 x (List.mem_cons_of_mem 46 hx)) hv2
      · by_cases hdig : 48 ≤ b ∧ b ≤ 57
        · have hv2 : (∃ b ∈ t, ¬((48 ≤ b ∧ b ≤ 57) ∨ b = 46)) ∨
              2 ≤ t.count 46 + (if hd then 1 else 0) := by
            rcases hv with ⟨b2, hb2, hviol⟩ | hc
            · rcases List.mem_cons.mp hb2 with h | h
              · exact absurd hviol (by rw [h]; tauto)
              · exact Or.inl ⟨b2, h, hviol⟩
            · right
              have hbeq : (b == 46) = false := by simpa using h46
              simp only [List.count_cons, hbeq] at hc
              simpa using hc
          rw [if_neg h46, if_neg (by simpa using hdig)]
          simpa using ih t hd (by simpa using hf)
            (fun x hx => h0 x (List.mem_cons_of_mem b hx)) hv2
        · rw [if_neg h46, if_pos (by simpa using hdig)]

/-- C6 counterexample: in force-8-bit mode quote_sql_literal does not map the
3-byte NULL sentinel glyph to `NULL`: it single-quote wraps its bytes and
reports length 5. -/
theorem quote_sql_literal_sentinel_cex :
    quote_sql_literal (fun _ => 0) (some [226, 136, 133]) 3 true false
      = .ok (.fresh [39, 226, 136, 133, 39], 5) ∧
    (QRes.fresh [39, 226, 136, 133, 39], (5 : Nat)) ≠ (QRes.fresh [78, 85, 76, 76], 4) :=
  ⟨rfl, by decide⟩

/-- C6 amended: quote_sql_literal maps an empty field to `NULL` or `''` per
the null-as-empty flag; returns a 4-byte `NULL` or `null` unchanged; maps the
3-byte NULL sentinel glyph to `NULL` only in non-force-8-bit mode (in
force-8-bit mode the sentinel is single-quote wrapped like any other
non-numeric field, as the counterexample shows); returns a NUL-free field of
digits with at most one dot unchanged; and (stated in force-8-bit mode, the
UTF-8 copy loop reading uninitialized bytes) wraps every other NUL-free
non-empty field in single quotes with embedded single quotes doubled. -/
theorem quote_sql_literal_cases :
    ∀ (junk : Nat → UInt8) (f8 esin : Bool) (s : List UInt8),
      (quote_sql_literal junk (some []) 0 f8 true = .ok (.fresh [78, 85, 76, 76], 4)) ∧
      (quote_sql_literal junk (some []) 0 f8 false = .ok (.fresh [39, 39], 2)) ∧
      (quote_sql_literal junk (some [78, 85, 76, 76]) 4 f8 esin = .ok (.same, 4)) ∧
      (quote_sql_literal junk (some [110, 117, 108, 108]) 4 f8 esin = .ok (.same, 4)) ∧
      (quote_sql_literal junk (some nullSentinel) 3 false esin
        = .ok (.fresh [78, 85, 76, 76], 4)) ∧
      (s ≠ [] → (∀ b ∈ s, (48 ≤ b ∧ b ≤ 57) ∨ b = 46) → s.count 46 ≤ 1 →
        quote_sql_literal junk (some s) s.length f8 esin = .ok (.same, s.length)) ∧
      ((∀ b ∈ s, b ≠ 0) → s ≠ [] →
        ¬(s.length = 4 ∧ (s.take 4 = [78, 85, 76, 76] ∨ s.take 4 = [110, 117, 108, 108])) →
        ((∃ b ∈ s, ¬((48 ≤ b ∧ b ≤ 57) ∨ b = 46)) ∨ 2 ≤ s.count 46) →
        quote_sql_literal junk (some s) s.length true esin
          = .ok (.fresh (dblWrap 39 s), s.length + 2)) := by
  intro junk f8 esin s
  refine ⟨by simp [quote_sql_literal, quote_sql_literal_nn],
          by simp [quote_sql_literal, quote_sql_literal_nn],
          by simp [quote_sql_literal, quote_sql_literal_nn],
          by simp [quote_sql_literal, quote_sql_literal_nn],
          by simp [quote_sql_literal, quote_sql_literal_nn, nullSentinel],
          ?_, ?_⟩
  · intro hne hdig hcnt
    have hlne : ¬(s.length = 0) := fun h => hne (List.length_eq_zero.mp h)
    have hnull : ¬(s.length = 4 ∧
        (s.take 4 = [78, 85, 76, 76] ∨ s.take 4 = [110, 117, 108, 108])) := by
      rintro ⟨hl, hc⟩
      have hts : s.take 4 = s := by rw [← hl]; exact List.take_length s
      rcases hc with hc | hc <;> rw [hts] at hc <;> subst hc
      · exact absurd (hdig 78 (by decide)) (by decide)
      · exact absurd (hdig 110 (by decide)) (by decide)
    have hsent : ¬(¬f8 = true ∧ s.length = 3 ∧ s.take 3 = nullSentinel) := by
      rintro ⟨_, hl3, htk⟩
      have hts : s.take 3 = s := by rw [← hl3]; exact List.take_length s
      have : s = nullSentinel := hts.symm.trans htk
      subst this
      exact absurd (hdig 226 (by decide)) (by decide)
    have hscan : literalScanGo f8 (s.length + 1) false s s.length = false :=
      literalScanGo_numeric f8 (s.length + 1) s false (by omega) hdig (by simpa using hcnt)
    simp only [quote_sql_literal, quote_sql_literal_nn]
    rw [if_neg hlne, if_neg hnull, if_neg hsent, if_pos (by rw [hscan]; decide)]
  · intro h0 hne hnull hviol
    have hlne : ¬(s.length = 0) := fun h => hne (List.length_eq_zero.mp h)
    have hscan : literalScanGo true (s.length + 1) false s s.length = true :=
      literalScanGo_flagged (s.length + 1) s false (by omega) h0 (by simpa using hviol)
    have hwrap := quoteWrap_force8bit 39 junk s
    simp only [quote_sql_literal, quote_sql_literal_nn]
    rw [if_neg hlne, if_neg hnull, if_neg (by simp), if_neg (by rw [hscan]; decide), hwrap]

/-- C6 witness: the numeric field `1.5` passes through unchanged; the mixed
field `a1` is wrapped into `'a1'`. -/
theorem quote_sql_literal_cases_witness :
    quote_sql_literal (fun _ => 0) (some [49, 46, 53]) 3 true false = .ok (.same, 3) ∧
    quote_sql_literal (fun _ => 0) (some [97, 49]) 2 true false
      = .ok (.fresh [39, 97, 49, 39], 4) := by
  constructor
  · exact ((quote_sql_literal_cases (fun _ => 0) true false [49, 46, 53]).2.2.2.2.2.1
      (by decide) (by decide) (by decide)).trans rfl
  · exact ((quote_sql_literal_cases (fun _ => 0) true false [97, 49]).2.2.2.2.2.2
      (by decide) (by decide) (by decide) (Or.inl ⟨97, by decide, by decide⟩)).trans rfl

/-- C2 counterexample: a data token at xpos equal to xmin lies inside the
inclusive bounds xmin ≤ xpos ≤ xmax, yet process_item skips it: the state is
unchanged (colno stays 0) and nothing is written, because the code tests
`xpos <= xmin || xmax <= xpos` (export.c 396-398), excluding the endpoints. -/
theorem process_item_inclusive_bound_cex :
    process_item ⟨fun _ => 0, fun _ => 1, fun _ => 0, fun _ => none⟩
      ⟨.CSV, 5, 9, false, none, 3, true, false, 0, none⟩ 100 (some [65]) 1 5 false
      = .ok (⟨.CSV, 5, 9, false, none, 3, true, false, 0, none⟩, []) ∧
    ((5 : Int) ≤ 5 ∧ (5 : Int) ≤ 9) :=
  ⟨rfl, by decide⟩

/-- C2 amended: with an active column range (xmin ≠ -1) a data token is
skipped — returning success with the state unchanged and no output — exactly
when xpos ≤ xmin or xmax ≤ xpos, in every output format; a token strictly
inside (xmin < xpos < xmax) is exported: in the plain CSV format it is
written and the running column index colno is incremented. -/
theorem process_item_column_range_strict :
    ∀ (ext : Externals) (e : ExportState) (field : Option (List UInt8))
      (size : Nat) (xpos : Int) (is_colname : Bool),
      e.xmin ≠ -1 →
      ((xpos ≤ e.xmin ∨ e.xmax ≤ xpos) →
        process_item ext e 100 field size xpos is_colname = .ok (e, [])) ∧
      (e.xmin < xpos → xpos < e.xmax → e.format = .CSV → e.copy_line_extended = false →
        is_colname = false →
        ∀ f, field = some f →
        ∃ out, process_item ext e 100 field size xpos is_colname
                 = .ok ({ e with colno := e.colno + 1 }, out)) := by
  intro ext e field size xpos ic hx
  have h78 : ¬((100 : UInt8) = 78) := by decide
  constructor
  · intro hskip
    cases hfm : e.format <;>
      simp [process_item, hfm, hx, hskip, h78, INSERT_FORMAT_TYPE, DSV_FORMAT_TYPE]
  · intro h1 h2 hfm hcle hic f hf
    subst hf
    subst hic
    have hnoskip : ¬(e.xmin ≠ -1 ∧ (xpos ≤ e.xmin ∨ e.xmax ≤ xpos)) := by
      rintro ⟨_, hor | hor⟩ <;> omega
    rcases trim_str_cases e.force8bit f size with htr | ⟨t, m, htr⟩ <;>
      simp [process_item, hfm, hcle, hnoskip, h78, htr, csv_format,
            INSERT_FORMAT_TYPE, DSV_FORMAT_TYPE] <;>
      exact ⟨_, rfl⟩

/-- C2 witness: at xpos = xmax = 9 the token is skipped with no state change;
at xpos = 1 strictly inside (0, 2) the token is exported and colno becomes 1. -/
theorem process_item_column_range_strict_witness :
    process_item ⟨fun _ => 0, fun _ => 1, fun _ => 0, fun _ => none⟩
      ⟨.CSV, 5, 9, false, none, 3, true, false, 0, none⟩ 100 (some [65]) 1 9 false
      = .ok (⟨.CSV, 5, 9, false, none, 3, true, false, 0, none⟩, []) ∧
    ∃ out, process_item ⟨fun _ => 0, fun _ => 1, fun _ => 0, fun _ => none⟩
      ⟨.CSV, 0, 2, false, none, 3, true, false, 0, none⟩ 100 (some [65]) 1 1 false
      = .ok (⟨.CSV, 0, 2, false, none, 3, true, false, 1, none⟩, out) :=
  ⟨(process_item_column_range_strict ⟨fun _ => 0, fun _ => 1, fun _ => 0, fun _ => none⟩
      ⟨.CSV, 5, 9, false, none, 3, true, false, 0, none⟩ (some [65]) 1 9 false
      (by decide)).1 (Or.inr (by decide)),
   (process_item_column_range_strict ⟨fun _ => 0, fun _ => 1, fun _ => 0, fun _ => none⟩
      ⟨.CSV, 0, 2, false, none, 3, true, false, 0, none⟩ (some [65]) 1 1 false
      (by decide)).2 (by decide) (by decide) rfl rfl rfl [65] rfl⟩

/-- C10: in the commented SQL-insert format a terminator token on a
non-header row makes process_item read the captured column name at index
colno - 1 (export.c 387-388): when colno = 0 or the column-name array was
never populated this is an out-of-bounds or NULL read (modelled as the error
result) — the state a row reaches when all its in-range data tokens were
skipped by column-range filtering, or when no header row ran; the access is
in bounds exactly under the precondition colno ≥ 1 with a captured name
present at colno - 1, and then the comment line is emitted. -/
theorem process_item_comment_terminator_read :
    ∀ (ext : Externals) (e : ExportState),
      e.format = .INSERT_COMMENT →
      ((e.colno = 0 ∨ e.colnames = none) →
        process_item ext e 78 none 0 (-1) false = .error ()) ∧
      (∀ arr name, e.colnames = some arr → 1 ≤ e.colno →
        e.colno - 1 < arr.length → arr.getD (e.colno - 1) none = some name →
        process_item ext e 78 none 0 (-1) false
          = .ok (e, [41, 59, 9, 9, 32, 45, 45, 32] ++ decimalBytes e.colno ++
                    [46, 32] ++ name ++ [10])) := by
  intro ext e hfm
  constructor
  · intro hbad
    rcases hbad with hc0 | hcn
    · cases hcn : e.colnames with
      | none =>
        simp [process_item, hfm, INSERT_FORMAT_TYPE, readColname, hcn]
        try rfl
      | some arr =>
        simp [process_item, hfm, INSERT_FORMAT_TYPE, readColname, hcn, hc0]
        try rfl
    · simp [process_item, hfm, INSERT_FORMAT_TYPE, readColname, hcn]
      try rfl
  · intro arr name hcn hge hlt hget
    have hlt2 : (e.colno : Int) - 1 < (arr.length : Int) := by omega
    rw [List.getD_eq_getElem?_getD] at hget
    simp [process_item, hfm, INSERT_FORMAT_TYPE, readColname, hcn, hge, hlt2, hget]
    try rfl

/-- C10 witness: with format INSERT_COMMENT, colno = 0 and no captured
column names — the state after a fully range-filtered row — the terminator
token hits the colnames[-1] read. -/
theorem process_item_comment_terminator_read_witness :
    process_item ⟨fun _ => 0, fun _ => 1, fun _ => 0, fun _ => none⟩
      ⟨.INSERT_COMMENT, 3, 7, false, some [116], 2, true, false, 0, none⟩
      78 none 0 (-1) false = .error () :=
  (process_item_comment_terminator_read ⟨fun _ => 0, fun _ => 1, fun _ => 0, fun _ => none⟩
    ⟨.INSERT_COMMENT, 3, 7, false, some [116], 2, true, false, 0, none⟩ rfl).1
    (Or.inl rfl)

/-- C5: export_data with cmd_CopyTopLines or cmd_CopyBottomLines and a
negative rows or percent argument fails — it returns false — before any byte
is written to the output sink (the returned output is empty), for every
state of the other arguments. -/
theorem export_data_negative_args :
    ∀ (ext : Externals) (opts : Options) (scrdesc : ScrDesc) (desc : DataDesc)
      (cursor_row cursor_column : Int) (rows : Int) (percent : ℚ)
      (table_name : List UInt8) (cmd : PspgCommand) (format : ClipboardFormat)
      (lines : List (List UInt8 × Option LineInfo × Int)),
      (cmd = .CopyTopLines ∨ cmd = .CopyBottomLines) →
      (rows < 0 ∨ percent < 0) →
      export_data ext opts scrdesc desc cursor_row cursor_column rows percent
        table_name cmd format lines = .ok (false, []) := by
  intro ext opts scrdesc desc cursor_row cursor_column rows percent
    table_name cmd format lines hcmd hneg
  simp only [export_data]
  rw [if_pos ⟨hcmd, hneg⟩]

/-- C5 witness: a cmd_CopyTopLines call with rows = -1 returns false with no
output bytes. -/
theorem export_data_negative_args_witness :
    export_data ⟨fun _ => 0, fun _ => 1, fun _ => 0, fun _ => none⟩
      ⟨true, false, true, false⟩ ⟨-1, 0, -1, 0⟩
      ⟨2, 5, 5, 2, -1, -1, 1, 1, -1, [100, 73, 100], [(-1, 3)]⟩
      0 0 (-1) 0 [116] .CopyTopLines .CSV [] = .ok (false, []) :=
  export_data_negative_args ⟨fun _ => 0, fun _ => 1, fun _ => 0, fun _ => none⟩
    ⟨true, false, true, false⟩ ⟨-1, 0, -1, 0⟩
    ⟨2, 5, 5, 2, -1, -1, 1, 1, -1, [100, 73, 100], [(-1, 3)]⟩
    0 0 (-1) 0 [116] .CopyTopLines .CSV [] (Or.inl rfl) (Or.inl (by decide))

/-- C9: for cmd_CopyTopLines with non-negative rows and percent arguments,
the number of data rows satisfying the computed row range (min_row ≤ rn ≤
max_row within first_data_row ≤ rn ≤ last_data_row) lies between 0 and the
total number of data rows inclusive, even when percent exceeds 100. -/
theorem copyTopLines_rows_selected_bounded :
    ∀ (first_data_row last_data_row : Int) (rows : Int) (percent : ℚ) (min_row : Int),
      0 ≤ percent → 0 ≤ rows →
      0 ≤ rowsSelected first_data_row last_data_row
            (copyTopBottomRange first_data_row last_data_row .CopyTopLines
              rows percent min_row).1
            (copyTopBottomRange first_data_row last_data_row .CopyTopLines
              rows percent min_row).2 ∧
      rowsSelected first_data_row last_data_row
          (copyTopBottomRange first_data_row last_data_row .CopyTopLines
            rows percent min_row).1
          (copyTopBottomRange first_data_row last_data_row .CopyTopLines
            rows percent min_row).2
        ≤ (last_data_row - first_data_row + 1).toNat := by
  intro first_data_row last_data_row rows percent min_row _ _
  refine ⟨Nat.zero_le _, ?_⟩
  unfold rowsSelected
  calc (((List.range (last_data_row - first_data_row + 1).toNat).map
          fun k => first_data_row + Int.ofNat k).filter
          fun rn => decide ((copyTopBottomRange first_data_row last_data_row
            .CopyTopLines rows percent min_row).1 ≤ rn ∧
            rn ≤ (copyTopBottomRange first_data_row last_data_row
              .CopyTopLines rows percent min_row).2)).length
      ≤ ((List.range (last_data_row - first_data_row + 1).toNat).map
          fun k => first_data_row + Int.ofNat k).length := List.length_filter_le _ _
    _ = (last_data_row - first_data_row + 1).toNat := by
        rw [List.length_map, List.length_range]

/-- C9 witness: five data rows (rows 10 to 14), percent = 200: the computed
range keeps the selected count at 5, the total. -/
theorem copyTopLines_rows_selected_bounded_witness :
    rowsSelected 10 14
        (copyTopBottomRange 10 14 .CopyTopLines 0 200 10).1
        (copyTopBottomRange 10 14 .CopyTopLines 0 200 10).2
      ≤ (14 - 10 + 1 : Int).toNat :=
  (copyTopLines_rows_selected_bounded 10 14 0 200 10 (by norm_num) (by decide)).2
